import Mathlib

/-!
Verification of the response-construction core of a JSON-RPC server
(`jsonrpsee`): the bounded writer, the single-response builder, the batch
response builder, and the subscription pump.

The definitions below are shallow embeddings of the Rust source in
`core/src/server/helpers.rs` and `tests/tests/helpers.rs`.  Rust byte
buffers (`Vec<u8>`) are modelled as `List Nat`, Rust `String` as Lean
`String`, and `String::len` (a UTF-8 byte count) as `byteLen` below, which
sums the UTF-8 encoded size of every character.
-/

namespace Jsonrpsee

/-- UTF-8 encoding of one character as a list of byte values, mirroring the
byte representation Rust strings use. -/
def charBytes (c : Char) : List Nat :=
  let n := c.toNat
  if n < 0x80 then [n]
  else if n < 0x800 then [0xC0 ||| (n >>> 6), 0x80 ||| (n &&& 0x3F)]
  else if n < 0x10000 then
    [0xE0 ||| (n >>> 12), 0x80 ||| ((n >>> 6) &&& 0x3F), 0x80 ||| (n &&& 0x3F)]
  else
    [0xF0 ||| (n >>> 18), 0x80 ||| ((n >>> 12) &&& 0x3F),
     0x80 ||| ((n >>> 6) &&& 0x3F), 0x80 ||| (n &&& 0x3F)]

/-- The UTF-8 byte sequence of a string, i.e. what a Rust `String` holds. -/
def strBytes (s : String) : List Nat :=
  (s.data.map charBytes).flatten

/-- Byte length of a string: the model of Rust `String::len`. -/
def byteLen (s : String) : Nat :=
  (strBytes s).length

theorem strBytes_append (s t : String) :
    strBytes (s ++ t) = strBytes s ++ strBytes t := by
  simp [strBytes, String.data_append]

theorem byteLen_append (s t : String) :
    byteLen (s ++ t) = byteLen s + byteLen t := by
  simp [byteLen, strBytes_append]

/-- Bounded writer that allows writing at most `max_len` bytes.
Mirrors `BoundedWriter` in `core/src/server/helpers.rs`. -/
structure BoundedWriter where
  max_len : Nat
  buf : List Nat
  deriving Repr, DecidableEq

/-- Outcome of one `write` call: `Ok(n)` or the capacity-exceeded
`io::Error`. -/
inductive WriteResult where
  | ok (n : Nat)
  | capacityExceeded
  deriving Repr, DecidableEq

/-- `BoundedWriter::new`. -/
def BoundedWriter.new (maxLen : Nat) : BoundedWriter :=
  { max_len := maxLen, buf := [] }

/-- `BoundedWriter::into_bytes`. -/
def BoundedWriter.into_bytes (w : BoundedWriter) : List Nat :=
  w.buf

/-- `io::Write::write` for `&mut BoundedWriter`: appends the whole chunk if
`buf.len() + chunk.len()` fits in `max_len`, otherwise fails and leaves the
buffer unchanged.  The returned writer is the state after the call. -/
def BoundedWriter.write (w : BoundedWriter) (b : List Nat) :
    BoundedWriter × WriteResult :=
  if w.max_len ≥ w.buf.length + b.length then
    ({ w with buf := w.buf ++ b }, .ok b.length)
  else
    (w, .capacityExceeded)

theorem BoundedWriter.write_of_fits (w : BoundedWriter) (b : List Nat)
    (h : w.buf.length + b.length ≤ w.max_len) :
    w.write b = ({ w with buf := w.buf ++ b }, .ok b.length) := by
  unfold BoundedWriter.write
  rw [if_pos h]

theorem BoundedWriter.write_of_overflow (w : BoundedWriter) (b : List Nat)
    (h : w.max_len < w.buf.length + b.length) :
    w.write b = (w, .capacityExceeded) := by
  unfold BoundedWriter.write
  rw [if_neg (by omega)]

/-- `io::Write::flush` for `&mut BoundedWriter`: a no-op that returns `Ok(())`. -/
def BoundedWriter.flush (w : BoundedWriter) : BoundedWriter × Unit :=
  (w, ())

/-- A serializer writing through the bounded writer: writes the chunks in
order, stopping at the first failing write (as `serde_json::to_writer`
stops on the first `io::Error`).  Returns the final writer state and
whether every write succeeded. -/
def writeAll (w : BoundedWriter) : List (List Nat) → BoundedWriter × Bool
  | [] => (w, true)
  | c :: cs =>
    match w.write c with
    | (w', .ok _) => writeAll w' cs
    | (w', .capacityExceeded) => (w', false)

theorem writeAll_ok (cs : List (List Nat)) (w : BoundedWriter)
    (h : w.buf.length + cs.flatten.length ≤ w.max_len) :
    writeAll w cs = ({ w with buf := w.buf ++ cs.flatten }, true) := by
  induction cs generalizing w with
  | nil => simp [writeAll]
  | cons c cs ih =>
    have hc : w.buf.length + c.length ≤ w.max_len := by
      simp [List.flatten_cons] at h
      omega
    have hrec : ({ w with buf := w.buf ++ c } : BoundedWriter).buf.length +
        cs.flatten.length ≤ ({ w with buf := w.buf ++ c } : BoundedWriter).max_len := by
      simp [List.flatten_cons] at h ⊢
      omega
    simp only [writeAll, BoundedWriter.write_of_fits w c hc]
    rw [ih _ hrec]
    simp [List.flatten_cons]

theorem writeAll_fail (cs : List (List Nat)) (w : BoundedWriter)
    (hinv : w.buf.length ≤ w.max_len)
    (h : w.max_len < w.buf.length + cs.flatten.length) :
    (writeAll w cs).2 = false := by
  induction cs generalizing w with
  | nil => simp [List.flatten_nil] at h; omega
  | cons c cs ih =>
    by_cases hc : w.buf.length + c.length ≤ w.max_len
    · simp only [writeAll, BoundedWriter.write_of_fits w c hc]
      apply ih
      · simp; omega
      · simp [List.flatten_cons] at h ⊢
        omega
    · simp only [writeAll, BoundedWriter.write_of_overflow w c (by omega)]

/-! ### JSON values and their serialization

Modelled from the spec: the JSON-RPC envelope types (`Response`,
`ErrorResponse`, `ErrorObject`, `Id`) and their `serde_json` serialization
live in the `jsonrpsee-types` crate, which is not among the provided
source files; their compact wire shape is reconstructed from the spec and
from the expected strings asserted by the in-repo tests
(`core/src/server/helpers.rs`, `mod tests`).  `Json` is the model of a
serializable value; `Json.render` is compact `serde_json` output. -/

mutual
inductive Json where
  | null
  | bool (b : Bool)
  | num (n : Int)
  | str (s : String)
  | arr (xs : JsonList)
  | obj (kvs : JsonObj)
  deriving Repr, DecidableEq

inductive JsonList where
  | nil
  | cons (hd : Json) (tl : JsonList)
  deriving Repr, DecidableEq

inductive JsonObj where
  | nil
  | cons (key : String) (val : Json) (tl : JsonObj)
  deriving Repr, DecidableEq
end

/-- Lowercase hex digit, as `serde_json` uses for `\u00XX` escapes. -/
def hexDigit (n : Nat) : Char :=
  if n < 10 then Char.ofNat (48 + n) else Char.ofNat (87 + n)

/-- The escaping `serde_json` applies to one character inside a JSON
string: quote and backslash are backslash-escaped, the named control
characters get their short forms, other control characters become
`\u00XX`, and everything else is emitted verbatim. -/
def escapeChar (c : Char) : String :=
  if c = '"' then "\\\""
  else if c = '\\' then "\\\\"
  else if c.toNat = 8 then "\\b"
  else if c.toNat = 9 then "\\t"
  else if c.toNat = 10 then "\\n"
  else if c.toNat = 12 then "\\f"
  else if c.toNat = 13 then "\\r"
  else if c.toNat < 32 then
    "\\u00" ++ String.mk [hexDigit (c.toNat / 16), hexDigit (c.toNat % 16)]
  else String.mk [c]

/-- Compact `serde_json` rendering of a JSON string literal. -/
def renderString (s : String) : String :=
  "\"" ++ String.join (s.data.map escapeChar) ++ "\""

mutual
/-- Compact `serde_json` rendering of a JSON value. -/
def Json.render : Json → String
  | .null => "null"
  | .bool true => "true"
  | .bool false => "false"
  | .num n => toString n
  | .str s => renderString s
  | .arr xs => "[" ++ Json.renderArr xs ++ "]"
  | .obj kvs => "\x7b" ++ Json.renderObj kvs ++ "\x7d"

def Json.renderArr : JsonList → String
  | .nil => ""
  | .cons x .nil => Json.render x
  | .cons x (.cons y tl) => Json.render x ++ "," ++ Json.renderArr (.cons y tl)

def Json.renderObj : JsonObj → String
  | .nil => ""
  | .cons k v .nil => renderString k ++ ":" ++ Json.render v
  | .cons k v (.cons k2 v2 tl) =>
      renderString k ++ ":" ++ Json.render v ++ "," ++ Json.renderObj (.cons k2 v2 tl)
end

/-- Modelled from the spec: request/response identifier
(`jsonrpsee_types::Id`): null, a number, or a string. -/
inductive Id where
  | null
  | num (n : Nat)
  | str (s : String)
  deriving Repr, DecidableEq

/-- The JSON value an `Id` serializes as. -/
def idJson : Id → Json
  | .null => .null
  | .num n => .num n
  | .str s => .str s

/-- Modelled from the spec: `jsonrpsee_types::ErrorObject` — a code, a
message, and an optional data payload, with `data` omitted from the
serialization when absent. -/
structure ErrorObject where
  code : Int
  message : String
  data : Option Json
  deriving Repr, DecidableEq

/-- Modelled from the spec: the reserved error code for the
oversized-response fallback (`jsonrpsee_types::error::OVERSIZED_RESPONSE_CODE`). -/
def OVERSIZED_RESPONSE_CODE : Int := -32011

/-- Modelled from the spec: the fixed message text of the
oversized-response fallback (`jsonrpsee_types::error::OVERSIZED_RESPONSE_MSG`). -/
def OVERSIZED_RESPONSE_MSG : String := "The response was too big"

/-- Modelled from the spec: `ErrorCode::InvalidRequest` rendered as an
`ErrorObject` — the standard JSON-RPC code -32600 with its fixed message. -/
def invalidRequestObj : ErrorObject :=
  { code := -32600, message := "Invalid request", data := none }

/-- The JSON value an `ErrorObject` serializes as. -/
def errorObjectJson (e : ErrorObject) : Json :=
  .obj (.cons "code" (.num e.code) (.cons "message" (.str e.message)
    (match e.data with
     | none => .nil
     | some d => .cons "data" d .nil)))

/-- Modelled from the spec: the result envelope
`jsonrpsee_types::Response` as a JSON value:
`{jsonrpc: "2.0", result: <result>, id: <id>}`. -/
def responseJson (result : Json) (id : Id) : Json :=
  .obj (.cons "jsonrpc" (.str "2.0") (.cons "result" result
    (.cons "id" (idJson id) .nil)))

/-- Modelled from the spec: the error envelope
`jsonrpsee_types::ErrorResponse` as a JSON value:
`{jsonrpc: "2.0", error: <error>, id: <id>}`. -/
def errorResponseJson (e : ErrorObject) (id : Id) : Json :=
  .obj (.cons "jsonrpc" (.str "2.0") (.cons "error" (errorObjectJson e)
    (.cons "id" (idJson id) .nil)))

/-- Serialized result envelope (what `serde_json::to_writer` emits for
`Response::new(result, id)`). -/
def renderResponse (result : Json) (id : Id) : String :=
  (responseJson result id).render

/-- Serialized error envelope (what `serde_json::to_string` emits for
`ErrorResponse::borrowed(err, id)`). -/
def renderErrorResponse (e : ErrorObject) (id : Id) : String :=
  (errorResponseJson e id).render

/-! ### Single-response builder -/

/-- Run `serde_json::to_writer` against a fresh `BoundedWriter` of capacity
`cap`: the serializer emits the UTF-8 bytes of `s` as a sequence of chunks
(modelled one character at a time); the writer accepts them while the
total stays within `cap`.  Returns the final writer and whether every
write succeeded. -/
def serializeToWriter (cap : Nat) (s : String) : BoundedWriter × Bool :=
  writeAll (BoundedWriter.new cap) (s.data.map charBytes)

/-- `MethodResponse` of `core/src/server/helpers.rs`: the serialized
JSON-RPC response plus the success flag. -/
structure MethodResponse where
  result : String
  success : Bool
  deriving Repr, DecidableEq

/-- The oversized-response fallback `ErrorObject` built by
`MethodResponse::response` on capacity failure. -/
def oversizedErrorObj (max_response_size : Nat) : ErrorObject :=
  { code := OVERSIZED_RESPONSE_CODE
    message := OVERSIZED_RESPONSE_MSG
    data := some (.str ("Exceeded max limit of " ++ toString max_response_size)) }

/-- `MethodResponse::response`: serialize the result envelope through a
`BoundedWriter` of capacity `max_response_size`.  On success the writer's
bytes (exactly the envelope's UTF-8 encoding, see `serializeToWriter_bytes`)
are decoded unchecked into the body.  On failure the error is the writer's
capacity `io::Error` — the only failure the model's total renderer can
produce, matching the `err.is_io()` branch — and a fresh unbounded
oversized-response error envelope is substituted with `success = false`. -/
def MethodResponse.response (id : Id) (result : Json) (max_response_size : Nat) :
    MethodResponse :=
  let body := renderResponse result id
  if (serializeToWriter max_response_size body).2 then
    { result := body, success := true }
  else
    { result := renderErrorResponse (oversizedErrorObj max_response_size) id
      success := false }

/-- `MethodResponse::error`: serialize an error envelope unconditionally;
`success = false`. -/
def MethodResponse.error (id : Id) (err : ErrorObject) : MethodResponse :=
  { result := renderErrorResponse err id, success := false }

/-! ### Batch response builder -/

/-- `BatchResponse` of `core/src/server/helpers.rs`. -/
structure BatchResponse where
  result : String
  success : Bool
  deriving Repr, DecidableEq

/-- `BatchResponse::error`: serialize the error envelope; `success = false`. -/
def BatchResponse.error (id : Id) (err : ErrorObject) : BatchResponse :=
  { result := renderErrorResponse err id, success := false }

/-- `BatchResponseBuilder` of `core/src/server/helpers.rs`: the
accumulated text (seeded with `[`) and the batch size cap. -/
structure BatchResponseBuilder where
  result : String
  max_response_size : Nat
  deriving Repr, DecidableEq

/-- `BatchResponseBuilder::new_with_limit`. -/
def BatchResponseBuilder.new_with_limit (limit : Nat) : BatchResponseBuilder :=
  { result := "[", max_response_size := limit }

/-- `BatchResponseBuilder::append`: the prospective length is the entry's
byte length plus the accumulator's plus one for the separator; exceeding
the cap returns the `Invalid Request` batch error and leaves the builder
untouched, otherwise the entry and a trailing comma are appended.
The returned builder is the state after the call; `none` models `Ok(())`. -/
def BatchResponseBuilder.append (b : BatchResponseBuilder) (response : MethodResponse) :
    BatchResponseBuilder × Option BatchResponse :=
  if byteLen response.result + byteLen b.result + 1 > b.max_response_size then
    (b, some (BatchResponse.error Id.null invalidRequestObj))
  else
    ({ b with result := b.result ++ response.result ++ "," }, none)

/-- `BatchResponseBuilder::is_empty`: `self.result.len() <= 1`. -/
def BatchResponseBuilder.is_empty (b : BatchResponseBuilder) : Bool :=
  byteLen b.result ≤ 1

/-- Model of Rust `String::pop`: drop the last character. -/
def strPop (s : String) : String :=
  ⟨s.data.dropLast⟩

/-- `BatchResponseBuilder::finish`: an accumulator still of length 1 (only
the opening bracket) yields the `Invalid Request` error; otherwise the
trailing comma is popped and replaced by the closing bracket. -/
def BatchResponseBuilder.finish (b : BatchResponseBuilder) : BatchResponse :=
  if byteLen b.result = 1 then
    BatchResponse.error Id.null invalidRequestObj
  else
    { result := strPop b.result ++ "]", success := true }

/-- Fold `append` over a list of responses, stopping at the first failure
(the server's batch loop returns early on `Err`).  Returns the final
builder and whether every append succeeded. -/
def appendList (b : BatchResponseBuilder) : List MethodResponse → BatchResponseBuilder × Bool
  | [] => (b, true)
  | r :: rs =>
    match b.append r with
    | (b', none) => appendList b' rs
    | (b', some _) => (b', false)

/-- The entry bodies joined by commas (the payload of the final array). -/
def joinComma : List MethodResponse → String
  | [] => ""
  | [r] => r.result
  | r :: r2 :: rs => r.result ++ "," ++ joinComma (r2 :: rs)

/-- The entry bodies each followed by a trailing comma (the accumulator's
shape during building). -/
def joinTrail : List MethodResponse → String
  | [] => ""
  | r :: rs => r.result ++ "," ++ joinTrail rs

/-- Cumulative batch cost of a list of entries: each body's byte length
plus one separator byte. -/
def sumLen (rs : List MethodResponse) : Nat :=
  (rs.map (fun r => byteLen r.result + 1)).sum

/-! ### Subscription pump

Modelled from the spec: the delivery sink operations used by
`pipe_from_stream` (`tests/tests/helpers.rs`) — `pending.accept()`,
`sink.closed()`, `sink.send(msg)`, `sink.close(SubscriptionClosed::Success)`
— belong to repository code outside the provided sources, so the sink is
modelled as oracles: `closed t` tells whether the sink is observed closed
at loop iteration `t`, and `sendOk t` whether a send attempted at
iteration `t` is delivered (a send fails only on concurrent closure).
The pump's trace is the list of frames actually delivered. -/

/-- A frame delivered on a subscription: an item notification or a
terminal close frame (`ok = true` for success-close, `false` for
error-close). -/
inductive SubFrame (α : Type) where
  | item (a : α)
  | terminal (ok : Bool)
  deriving Repr, DecidableEq

/-- Whether a frame is a terminal (close) frame. -/
def SubFrame.isTerminal {α : Type} : SubFrame α → Bool
  | .item _ => false
  | .terminal _ => true

/-- The `loop` of `pipe_from_stream`: each iteration the biased select
checks `sink.closed()` first — if closed, return with no further frame;
otherwise poll the stream: on exhaustion send one success-close terminal
frame and return, on an item send it and continue, returning if the send
fails. -/
def pipeLoop {α : Type} (closed sendOk : Nat → Bool) :
    Nat → List α → List (SubFrame α)
  | t, items =>
    if closed t then []
    else
      match items with
      | [] => if sendOk t then [.terminal true] else []
      | a :: rest =>
        if sendOk t then .item a :: pipeLoop closed sendOk (t + 1) rest
        else []

/-- `pipe_from_stream` of `tests/tests/helpers.rs`: accept the pending
subscription (terminating silently on rejection), then run the pump loop. -/
def pipe_from_stream {α : Type} (acceptOk : Bool) (closed sendOk : Nat → Bool)
    (items : List α) : List (SubFrame α) :=
  if acceptOk then pipeLoop closed sendOk 0 items else []

/-- A concrete 37-byte response: result `"a"`, id `1`, ample capacity —
the entry used by the repository's own batch tests. -/
def respA1 : MethodResponse :=
  MethodResponse.response (Id.num 1) (Json.str "a") 1000

/-! ### Helper lemmas -/

theorem str_eq_of_data (a b : String) (h : a.data = b.data) : a = b := by
  cases a
  cases b
  exact congrArg String.mk h

theorem str_append_empty (a : String) : a ++ "" = a := by
  apply str_eq_of_data
  simp [String.data_append]

theorem str_append_assoc (a b c : String) : a ++ b ++ c = a ++ (b ++ c) := by
  apply str_eq_of_data
  simp [String.data_append]

theorem strPop_append_comma (a : String) : strPop (a ++ ",") = a := by
  apply str_eq_of_data
  have hc : ("," : String).data = [','] := rfl
  simp [strPop, String.data_append, hc]

theorem byteLen_comma : byteLen "," = 1 := rfl

theorem byteLen_bracket : byteLen "[" = 1 := rfl

/-- Writing a whole string through a fresh bounded writer succeeds when
its byte length fits, leaving exactly its UTF-8 bytes in the buffer. -/
theorem serializeToWriter_ok (cap : Nat) (s : String) (h : byteLen s ≤ cap) :
    serializeToWriter cap s = ({ max_len := cap, buf := strBytes s }, true) := by
  unfold serializeToWriter
  have hb : (BoundedWriter.new cap).buf.length +
      (s.data.map charBytes).flatten.length ≤ (BoundedWriter.new cap).max_len := by
    simpa [BoundedWriter.new, strBytes, byteLen] using h
  rw [writeAll_ok _ _ hb]
  simp [BoundedWriter.new, strBytes]

/-- Writing a whole string through a fresh bounded writer fails when its
byte length exceeds the capacity. -/
theorem serializeToWriter_fail (cap : Nat) (s : String) (h : cap < byteLen s) :
    (serializeToWriter cap s).2 = false := by
  unfold serializeToWriter
  apply writeAll_fail
  · simp [BoundedWriter.new]
  · simpa [BoundedWriter.new, strBytes, byteLen] using h

/-! ### Claims about the bounded writer -/

/-- C2: for every writer state with buffer `buf` and capacity `c`, and
every byte sequence `b` with `buf.len + b.len ≤ c`, `write b` succeeds
returning `Ok(b.len)` and the buffer becomes `buf ++ b`; and for a fresh
writer of capacity `c` and any `b` with `len b ≤ c`, writing `b` and then
`into_bytes` yields exactly `b`. -/
theorem C2_write_appends (w : BoundedWriter) (b : List Nat)
    (h : w.buf.length + b.length ≤ w.max_len) :
    ((w.write b).2 = WriteResult.ok b.length ∧ (w.write b).1.buf = w.buf ++ b) ∧
    (∀ (c : Nat) (bb : List Nat), bb.length ≤ c →
      ((BoundedWriter.new c).write bb).2 = WriteResult.ok bb.length ∧
      ((BoundedWriter.new c).write bb).1.into_bytes = bb) := by
  constructor
  · rw [BoundedWriter.write_of_fits w b h]
    exact ⟨rfl, rfl⟩
  · intro c bb hbb
    have hfit : (BoundedWriter.new c).buf.length + bb.length ≤
        (BoundedWriter.new c).max_len := by
      simpa [BoundedWriter.new] using hbb
    rw [BoundedWriter.write_of_fits _ bb hfit]
    exact ⟨rfl, by simp [BoundedWriter.new, BoundedWriter.into_bytes]⟩

/-- C2 witness at a concrete input. -/
theorem C2_write_appends_witness :
    ((⟨10, [1, 2]⟩ : BoundedWriter).write [3, 4]).2 = WriteResult.ok 2 ∧
    ((⟨10, [1, 2]⟩ : BoundedWriter).write [3, 4]).1.buf = [1, 2, 3, 4] :=
  (C2_write_appends ⟨10, [1, 2]⟩ [3, 4] (by decide)).1

/-- C3: for every writer state with buffer `buf` and capacity `c`, and
every byte sequence `b` with `buf.len + b.len > c`, `write b` returns the
capacity-exceeded error and the writer is left exactly as it was; for a
fresh writer and `len b > c` the buffer remains empty. -/
theorem C3_write_overflow (w : BoundedWriter) (b : List Nat)
    (h : w.max_len < w.buf.length + b.length) :
    ((w.write b).2 = WriteResult.capacityExceeded ∧ (w.write b).1 = w) ∧
    (∀ (c : Nat) (bb : List Nat), c < bb.length →
      ((BoundedWriter.new c).write bb).2 = WriteResult.capacityExceeded ∧
      ((BoundedWriter.new c).write bb).1.buf = []) := by
  constructor
  · rw [BoundedWriter.write_of_overflow w b h]
    exact ⟨rfl, rfl⟩
  · intro c bb hbb
    have hover : (BoundedWriter.new c).max_len <
        (BoundedWriter.new c).buf.length + bb.length := by
      simpa [BoundedWriter.new] using hbb
    rw [BoundedWriter.write_of_overflow _ bb hover]
    exact ⟨rfl, rfl⟩

/-- C3 witness at a concrete input. -/
theorem C3_write_overflow_witness :
    ((⟨3, [1, 2]⟩ : BoundedWriter).write [3, 4]).2 = WriteResult.capacityExceeded ∧
    ((⟨3, [1, 2]⟩ : BoundedWriter).write [3, 4]).1 = (⟨3, [1, 2]⟩ : BoundedWriter) :=
  (C3_write_overflow ⟨3, [1, 2]⟩ [3, 4] (by decide)).1

/-- The bounded writer's invariant: the buffer never exceeds the capacity. -/
def WriterInv (w : BoundedWriter) : Prop :=
  w.buf.length ≤ w.max_len

/-- C4: `buf.len ≤ capacity` holds after `new`, is preserved by every
`write` (successful or failed) and by `flush`, and bounds the length of
the bytes extracted by `into_bytes`. -/
theorem C4_writer_invariant (w : BoundedWriter) (b : List Nat) (h : WriterInv w) :
    (∀ c : Nat, WriterInv (BoundedWriter.new c)) ∧
    WriterInv ((w.write b).1) ∧
    WriterInv ((w.flush).1) ∧
    w.into_bytes.length ≤ w.max_len := by
  refine ⟨?_, ?_, h, h⟩
  · intro c
    simp [WriterInv, BoundedWriter.new]
  · unfold BoundedWriter.write
    by_cases hc : w.buf.length + b.length ≤ w.max_len
    · rw [if_pos hc]
      simpa [WriterInv] using hc
    · rw [if_neg hc]
      exact h

/-- C4 witness at a concrete input. -/
theorem C4_writer_invariant_witness :
    WriterInv (((⟨5, [7]⟩ : BoundedWriter)).write [8, 9]).1 :=
  (C4_writer_invariant ⟨5, [7]⟩ [8, 9] (by simp [WriterInv])).2.1

/-! ### Claims about the single-response builder -/

/-- C1: when the serialized response envelope for `v` exceeds
`max_response_size` bytes, the bounded writer reports capacity exhaustion
and `MethodResponse::response` returns `success = false` with the
deterministic oversized-response error envelope (code
`OVERSIZED_RESPONSE_CODE`, message `OVERSIZED_RESPONSE_MSG`, the original
id, and data `"Exceeded max limit of {max_response_size}"`); the body is
the rendering of a JSON value (hence parses as valid JSON) and is the same
for every oversized `v`, so its size does not depend on `v`. -/
theorem C1_oversized_fallback (id : Id) (v : Json) (cap : Nat)
    (h : cap < byteLen (renderResponse v id)) :
    (serializeToWriter cap (renderResponse v id)).2 = false ∧
    (MethodResponse.response id v cap).success = false ∧
    (MethodResponse.response id v cap).result =
      renderErrorResponse (oversizedErrorObj cap) id ∧
    (∃ j : Json, (MethodResponse.response id v cap).result = j.render) ∧
    (∀ v' : Json, cap < byteLen (renderResponse v' id) →
      (MethodResponse.response id v' cap).result =
        (MethodResponse.response id v cap).result) := by
  have hfail : ∀ u : Json, cap < byteLen (renderResponse u id) →
      MethodResponse.response id u cap =
        ⟨renderErrorResponse (oversizedErrorObj cap) id, false⟩ := by
    intro u hu
    simp [MethodResponse.response, serializeToWriter_fail cap _ hu]
  have hv := hfail v h
  refine ⟨serializeToWriter_fail cap _ h, ?_, ?_, ?_, ?_⟩
  · rw [hv]
  · rw [hv]
  · exact ⟨errorResponseJson (oversizedErrorObj cap) id, by rw [hv]; rfl⟩
  · intro v' hv'
    rw [hfail v' hv', hv]

/-- C1 witness at a concrete input. -/
theorem C1_oversized_fallback_witness :
    (MethodResponse.response (Id.num 1) (Json.str "a") 10).success = false ∧
    (MethodResponse.response (Id.num 1) (Json.str "a") 10).result =
      renderErrorResponse (oversizedErrorObj 10) (Id.num 1) :=
  ⟨(C1_oversized_fallback (Id.num 1) (Json.str "a") 10 (by decide)).2.1,
   (C1_oversized_fallback (Id.num 1) (Json.str "a") 10 (by decide)).2.2.1⟩

/-- C8: whenever serialization of the response envelope into the bounded
writer succeeds, the accumulated bytes are exactly the UTF-8 encoding of
the envelope text — in particular they are valid UTF-8 (the image of the
encoder) — so the unchecked decode in `MethodResponse::response` yields
precisely that text, with `success = true`. -/
theorem C8_utf8_on_success (id : Id) (v : Json) (cap : Nat)
    (h : (serializeToWriter cap (renderResponse v id)).2 = true) :
    (serializeToWriter cap (renderResponse v id)).1.into_bytes =
      strBytes (renderResponse v id) ∧
    (∃ t : String,
      strBytes t = (serializeToWriter cap (renderResponse v id)).1.into_bytes) ∧
    MethodResponse.response id v cap =
      { result := renderResponse v id, success := true } := by
  have hle : byteLen (renderResponse v id) ≤ cap := by
    by_contra hlt
    rw [serializeToWriter_fail cap _ (by omega)] at h
    cases h
  have hok := serializeToWriter_ok cap (renderResponse v id) hle
  refine ⟨by rw [hok]; rfl, ⟨renderResponse v id, by rw [hok]; rfl⟩, ?_⟩
  simp [MethodResponse.response, hok]

/-- C8 witness at a concrete input. -/
theorem C8_utf8_on_success_witness :
    MethodResponse.response (Id.num 1) (Json.str "a") 100 =
      { result := renderResponse (Json.str "a") (Id.num 1), success := true } :=
  (C8_utf8_on_success (Id.num 1) (Json.str "a") 100 (by decide)).2.2

/-! ### Claims about the batch response builder -/

theorem byteLen_joinTrail (rs : List MethodResponse) :
    byteLen (joinTrail rs) = sumLen rs := by
  induction rs with
  | nil => rfl
  | cons r rs ih =>
    simp [joinTrail, sumLen, byteLen_append, byteLen_comma, List.map_cons,
      List.sum_cons] at *
    omega

theorem joinTrail_eq_joinComma (r : MethodResponse) (rs : List MethodResponse) :
    joinTrail (r :: rs) = joinComma (r :: rs) ++ "," := by
  induction rs generalizing r with
  | nil => simp [joinTrail, joinComma, str_append_empty]
  | cons r2 rs ih =>
    rw [joinTrail, ih r2, joinComma]
    simp only [str_append_assoc]

theorem finish_nonempty (b : BatchResponseBuilder) (h : ¬(byteLen b.result = 1)) :
    b.finish = { result := strPop b.result ++ "]", success := true } := by
  unfold BatchResponseBuilder.finish
  rw [if_neg h]

theorem appendList_ok (rs : List MethodResponse) (b : BatchResponseBuilder)
    (h : byteLen b.result + sumLen rs ≤ b.max_response_size) :
    appendList b rs = ({ b with result := b.result ++ joinTrail rs }, true) := by
  induction rs generalizing b with
  | nil =>
    simp [appendList, joinTrail, str_append_empty]
  | cons r rs ih =>
    have hfit : ¬(byteLen r.result + byteLen b.result + 1 > b.max_response_size) := by
      simp [sumLen, List.map_cons, List.sum_cons] at h
      omega
    have hrec : byteLen ({ b with result := b.result ++ r.result ++ "," } :
        BatchResponseBuilder).result + sumLen rs ≤
        ({ b with result := b.result ++ r.result ++ "," } :
          BatchResponseBuilder).max_response_size := by
      simp [byteLen_append, byteLen_comma, sumLen, List.map_cons, List.sum_cons] at h ⊢
      omega
    simp only [appendList, BatchResponseBuilder.append, if_neg hfit]
    rw [ih _ hrec]
    simp [joinTrail, str_append_assoc]

/-- C5 (amended: the sequence must be nonempty, since `finish` on a
never-appended builder yields the Invalid Request error): for every cap
and every nonempty sequence of responses whose cumulative size — one byte
for the opening bracket plus each entry's byte length plus one separator
byte — stays within the cap, every append succeeds and `finish` returns
`success = true` with body `[` ++ the entry bodies joined by `,` ++ `]`,
the entries in append order. -/
theorem C5_batch_append_and_finish (cap : Nat) (rs : List MethodResponse)
    (hne : rs ≠ []) (hfit : 1 + sumLen rs ≤ cap) :
    (appendList (BatchResponseBuilder.new_with_limit cap) rs).2 = true ∧
    (appendList (BatchResponseBuilder.new_with_limit cap) rs).1.finish =
      { result := "[" ++ joinComma rs ++ "]", success := true } := by
  have hb : byteLen (BatchResponseBuilder.new_with_limit cap).result + sumLen rs ≤
      (BatchResponseBuilder.new_with_limit cap).max_response_size := by
    simpa [BatchResponseBuilder.new_with_limit, byteLen_bracket] using hfit
  rw [appendList_ok rs _ hb]
  refine ⟨rfl, ?_⟩
  obtain ⟨r, rs', rfl⟩ := List.exists_cons_of_ne_nil hne
  have hlen : ¬(byteLen (("[" : String) ++ joinTrail (r :: rs')) = 1) := by
    simp [byteLen_append, byteLen_bracket, byteLen_joinTrail, sumLen,
      List.map_cons, List.sum_cons]
  show BatchResponseBuilder.finish
      { result := "[" ++ joinTrail (r :: rs'), max_response_size := cap } =
    { result := "[" ++ joinComma (r :: rs') ++ "]", success := true }
  rw [finish_nonempty _ hlen]
  rw [joinTrail_eq_joinComma, ← str_append_assoc, strPop_append_comma]

/-- C5 witness: the claim's concrete scenario — two 37-byte responses for
result `"a"` and id `1` batched with cap 77. -/
theorem C5_batch_append_and_finish_witness :
    (appendList (BatchResponseBuilder.new_with_limit 77) [respA1, respA1]).2 = true ∧
    (appendList (BatchResponseBuilder.new_with_limit 77) [respA1, respA1]).1.finish =
      { result := "[\x7b\"jsonrpc\":\"2.0\",\"result\":\"a\",\"id\":1\x7d,\x7b\"jsonrpc\":\"2.0\",\"result\":\"a\",\"id\":1\x7d]"
        success := true } := by
  have h := C5_batch_append_and_finish 77 [respA1, respA1]
    (List.cons_ne_nil _ _) (by decide)
  exact ⟨h.1, h.2.trans (by decide)⟩

/-- C5 counterexample: the empty sequence satisfies the claim's cumulative
bound (1 ≤ 10) and every (vacuous) append succeeds, yet `finish` yields
the Invalid Request error with `success = false`, not the claimed
successful JSON array. -/
theorem C5_empty_batch_counterexample :
    1 + sumLen ([] : List MethodResponse) ≤ 10 ∧
    (appendList (BatchResponseBuilder.new_with_limit 10)
      ([] : List MethodResponse)).2 = true ∧
    (appendList (BatchResponseBuilder.new_with_limit 10)
      ([] : List MethodResponse)).1.finish.success = false := by
  decide

/-- C6: `append` fails exactly when the accumulated length plus the
entry's body length plus one exceeds the cap, and on failure returns the
fixed Invalid Request batch error envelope; concretely the 37-byte
response for result `"a"` and id `1` appended to a fresh builder succeeds
at cap 39 (the exact boundary) and fails at every cap at most 38. -/
theorem C6_append_boundary (b : BatchResponseBuilder) (r : MethodResponse) :
    ((b.append r).2.isSome ↔
      byteLen b.result + byteLen r.result + 1 > b.max_response_size) ∧
    (byteLen b.result + byteLen r.result + 1 > b.max_response_size →
      (b.append r).2 =
        some { result := renderErrorResponse invalidRequestObj Id.null
               success := false }) ∧
    byteLen respA1.result = 37 ∧
    ((BatchResponseBuilder.new_with_limit 39).append respA1).2 = none ∧
    (∀ cap : Nat, cap ≤ 38 →
      ((BatchResponseBuilder.new_with_limit cap).append respA1).2 =
        some { result := renderErrorResponse invalidRequestObj Id.null
               success := false }) := by
  refine ⟨?_, ?_, by decide, by decide, ?_⟩
  · unfold BatchResponseBuilder.append
    by_cases hc : byteLen r.result + byteLen b.result + 1 > b.max_response_size
    · rw [if_pos hc]
      simp
      omega
    · rw [if_neg hc]
      simp
      omega
  · intro hgt
    unfold BatchResponseBuilder.append
    rw [if_pos (by omega)]
    rfl
  · intro cap hcap
    have h37 : byteLen respA1.result = 37 := by decide
    simp only [BatchResponseBuilder.append, BatchResponseBuilder.new_with_limit,
      h37, byteLen_bracket]
    rw [if_pos (by omega : 37 + 1 + 1 > cap)]
    rfl

/-- C6 witness at a concrete input. -/
theorem C6_append_boundary_witness :
    ((BatchResponseBuilder.new_with_limit 38).append respA1).2 =
      some { result := renderErrorResponse invalidRequestObj Id.null
             success := false } :=
  (C6_append_boundary (BatchResponseBuilder.new_with_limit 38) respA1).2.2.2.2
    38 (by decide)

/-- C7: for every cap, `finish` on a builder to which no append ever
succeeded (the accumulator still holds only the opening bracket) returns
the Invalid Request error envelope with id null and `success = false`. -/
theorem C7_finish_empty (cap : Nat) :
    (∀ b : BatchResponseBuilder, b.result = "[" →
      b.finish = { result := renderErrorResponse invalidRequestObj Id.null
                   success := false }) ∧
    (BatchResponseBuilder.new_with_limit cap).finish =
      { result := renderErrorResponse invalidRequestObj Id.null
        success := false } := by
  have hgen : ∀ b : BatchResponseBuilder, b.result = "[" →
      b.finish = { result := renderErrorResponse invalidRequestObj Id.null
                   success := false } := by
    intro b hb
    unfold BatchResponseBuilder.finish
    rw [hb, if_pos byteLen_bracket]
    rfl
  exact ⟨hgen, hgen _ rfl⟩

/-- C7 witness at a concrete input. -/
theorem C7_finish_empty_witness :
    (BatchResponseBuilder.new_with_limit 1024).finish =
      { result := renderErrorResponse invalidRequestObj Id.null
        success := false } :=
  (C7_finish_empty 1024).2

/-- C10: when `append` fails because the prospective length exceeds the
cap, the builder (accumulator and cap) is left exactly as it was, the
returned envelope is the fixed Invalid Request error (independent of the
accumulated entries), and a subsequent append of a response that fits
still succeeds on the same builder. -/
theorem C10_append_fail_is_noop (b : BatchResponseBuilder) (r : MethodResponse)
    (h : byteLen b.result + byteLen r.result + 1 > b.max_response_size) :
    (b.append r).1 = b ∧
    (b.append r).2 =
      some { result := renderErrorResponse invalidRequestObj Id.null
             success := false } ∧
    (∀ r2 : MethodResponse,
      byteLen b.result + byteLen r2.result + 1 ≤ b.max_response_size →
      ((b.append r).1.append r2).2 = none ∧
      ((b.append r).1.append r2).1.result = b.result ++ r2.result ++ ",") := by
  have happ : b.append r = (b, some (BatchResponse.error Id.null invalidRequestObj)) := by
    unfold BatchResponseBuilder.append
    rw [if_pos (by omega)]
  refine ⟨by rw [happ], by rw [happ]; rfl, ?_⟩
  intro r2 h2
  rw [happ]
  show (b.append r2).2 = none ∧
    (b.append r2).1.result = b.result ++ r2.result ++ ","
  unfold BatchResponseBuilder.append
  rw [if_neg (by omega)]
  exact ⟨rfl, rfl⟩

/-- C10 witness at a concrete input. -/
theorem C10_append_fail_is_noop_witness :
    ((BatchResponseBuilder.new_with_limit 38).append respA1).1 =
      BatchResponseBuilder.new_with_limit 38 ∧
    (((BatchResponseBuilder.new_with_limit 38).append respA1).1.append
      ⟨"1", true⟩).2 = none := by
  have h := C10_append_fail_is_noop (BatchResponseBuilder.new_with_limit 38)
    respA1 (by decide)
  exact ⟨h.1, (h.2.2 ⟨"1", true⟩ (by decide)).1⟩

/-! ### Claims about the subscription pump -/

/-- Every pump trace is a run of item frames optionally ended by one
success-close terminal frame. -/
theorem pipeLoop_shape {α : Type} (closed sendOk : Nat → Bool) (items : List α)
    (t : Nat) :
    ∃ pre : List α,
      pipeLoop closed sendOk t items = pre.map SubFrame.item ∨
      pipeLoop closed sendOk t items =
        pre.map SubFrame.item ++ [SubFrame.terminal true] := by
  induction items generalizing t with
  | nil =>
    refine ⟨[], ?_⟩
    by_cases hc : closed t
    · left; simp [pipeLoop, hc]
    · by_cases hs : sendOk t
      · right; simp [pipeLoop, hc, hs]
      · left; simp [pipeLoop, hc, hs]
  | cons a rest ih =>
    by_cases hc : closed t
    · exact ⟨[], Or.inl (by simp [pipeLoop, hc])⟩
    · by_cases hs : sendOk t
      · obtain ⟨pre, hpre | hpre⟩ := ih (t + 1)
        · exact ⟨a :: pre, Or.inl (by simp [pipeLoop, hc, hs, hpre])⟩
        · exact ⟨a :: pre, Or.inr (by simp [pipeLoop, hc, hs, hpre])⟩
      · exact ⟨[], Or.inl (by simp [pipeLoop, hc, hs])⟩

theorem no_terminal_in_items {α : Type} (pre : List α)
    (l₁ l₂ : List (SubFrame α)) (f : SubFrame α)
    (happ : pre.map SubFrame.item = l₁ ++ f :: l₂)
    (hf : f.isTerminal = true) : False := by
  have hmem : f ∈ pre.map SubFrame.item := by
    rw [happ]
    exact List.mem_append_right _ (List.mem_cons_self f l₂)
  obtain ⟨a, _, rfl⟩ := List.mem_map.mp hmem
  simp [SubFrame.isTerminal] at hf

theorem terminal_is_last_of_shape {α : Type} (pre : List α)
    (l₁ l₂ : List (SubFrame α)) (f : SubFrame α)
    (happ : pre.map SubFrame.item ++ [SubFrame.terminal true] = l₁ ++ f :: l₂)
    (hf : f.isTerminal = true) : l₂ = [] := by
  induction pre generalizing l₁ with
  | nil =>
    match l₁, happ with
    | [], happ =>
      simp at happ
      exact happ.2
    | x :: l₁', happ =>
      simp at happ
  | cons a pre ih =>
    match l₁, happ with
    | [], happ =>
      simp at happ
      rw [← happ.1] at hf
      simp [SubFrame.isTerminal] at hf
    | x :: l₁', happ =>
      simp only [List.map_cons, List.cons_append, List.cons.injEq] at happ
      exact ih l₁' happ.2

theorem countP_isTerminal_map_item {α : Type} (pre : List α) :
    (pre.map SubFrame.item).countP (fun f => f.isTerminal) = 0 := by
  induction pre with
  | nil => rfl
  | cons a pre ih => simp [List.countP_cons, SubFrame.isTerminal, ih]

/-- C9: over any upstream item sequence, any closure/send behaviour of the
sink, and any accept outcome, the pump's trace contains at most one
terminal frame, no frame follows a terminal frame (so no item frame
follows it), and once the sink is observed closed — at the very first
iteration or at any later one — no further upstream items are forwarded
even if items are immediately available. -/
theorem C9_pump_terminal {α : Type} (acceptOk : Bool) (closed sendOk : Nat → Bool)
    (items : List α) :
    ((pipe_from_stream acceptOk closed sendOk items).countP
        (fun f => f.isTerminal) ≤ 1) ∧
    (∀ (l₁ l₂ : List (SubFrame α)) (f : SubFrame α),
      pipe_from_stream acceptOk closed sendOk items = l₁ ++ f :: l₂ →
      f.isTerminal = true → l₂ = []) ∧
    (closed 0 = true → pipe_from_stream acceptOk closed sendOk items = []) ∧
    (∀ (t : Nat) (items' : List α), closed t = true →
      pipeLoop closed sendOk t items' = []) := by
  have hclosed : ∀ (t : Nat) (items' : List α), closed t = true →
      pipeLoop closed sendOk t items' = [] := by
    intro t items' hc
    cases items' <;> simp [pipeLoop, hc]
  have hshape : ∃ pre : List α,
      pipe_from_stream acceptOk closed sendOk items = pre.map SubFrame.item ∨
      pipe_from_stream acceptOk closed sendOk items =
        pre.map SubFrame.item ++ [SubFrame.terminal true] := by
    unfold pipe_from_stream
    by_cases ha : acceptOk
    · rw [if_pos ha]
      exact pipeLoop_shape closed sendOk items 0
    · exact ⟨[], Or.inl (by rw [if_neg ha]; rfl)⟩
  obtain ⟨pre, hpre | hpre⟩ := hshape
  · refine ⟨?_, ?_, ?_, hclosed⟩
    · rw [hpre, countP_isTerminal_map_item]
      omega
    · intro l₁ l₂ f happ hf
      exact absurd (hpre.symm.trans happ) (fun h => no_terminal_in_items pre l₁ l₂ f h hf)
    · intro hc0
      unfold pipe_from_stream
      by_cases ha : acceptOk
      · rw [if_pos ha]
        exact hclosed 0 items hc0
      · rw [if_neg ha]
  · refine ⟨?_, ?_, ?_, hclosed⟩
    · rw [hpre, List.countP_append, countP_isTerminal_map_item]
      simp [List.countP_cons, List.countP_nil, SubFrame.isTerminal]
    · intro l₁ l₂ f happ hf
      exact terminal_is_last_of_shape pre l₁ l₂ f (hpre.symm.trans happ) hf
    · intro hc0
      unfold pipe_from_stream
      by_cases ha : acceptOk
      · rw [if_pos ha]
        exact hclosed 0 items hc0
      · rw [if_neg ha]

/-- C9 witness at a concrete input: the sink is closed from the start, so
even with three items immediately available nothing is forwarded. -/
theorem C9_pump_terminal_witness :
    pipe_from_stream true (fun _ => true) (fun _ => true) [1, 2, 3] =
      ([] : List (SubFrame Nat)) :=
  (C9_pump_terminal true (fun _ => true) (fun _ => true) [1, 2, 3]).2.2.1 rfl

end Jsonrpsee
